import Mathlib

/-!
Verification of the paginated table browser of
`StreamingCommunity/Util/table.py` (class `TVShowManager`).

The Python class owns a record list, slice bounds and an interactive loop.
We embed it shallowly: records are association lists (Python dicts with
string keys), console printing is modelled by returning the rendered grid,
the user prompt is modelled by a finite list of the strings the user types,
and the call-stack lookup for the external `search` callback is modelled by
a boolean saying whether one was resolved.  Python integers are `Int`.
-/

/-- A record (one Python TV-show dict): association list column name to value. -/
abbrev Record := List (String × String)

/-- Column schema: ordered list of (column name, optional color attribute),
mirroring the insertion-ordered `column_info` dict of the source. -/
abbrev ColumnInfo := List (String × Option String)

/-- Python `str.lower()` as exercised by the controller (ASCII case folding). -/
def pyLower (s : String) : String := String.mk (s.data.map Char.toLower)

/-- Python list slicing `l[s:e]` with step 1, as used for
`self.tv_shows[self.slice_start:self.slice_end]`. -/
def pySlice {α : Type} (l : List α) (s e : Int) : List α :=
  let n : Int := l.length
  let s1 : Int := if s < 0 then max (s + n) 0 else min s n
  let e1 : Int := if e < 0 then max (e + n) 0 else min e n
  (l.drop s1.toNat).take (e1 - s1).toNat

/-- The state held by the Python class `TVShowManager`
(`self.console` is the display surface and carries no state we track). -/
structure TVShowManager where
  tv_shows : List Record
  slice_start : Int
  slice_end : Int
  step : Int
  column_info : ColumnInfo
deriving DecidableEq

namespace TVShowManager

/-- `__init__`: empty record set, `slice_start = 0`, `slice_end = 5`,
`step = slice_end`, empty column schema. -/
def init : TVShowManager := ⟨[], 0, 5, 5, []⟩

/-- `set_slice_end`: sets `slice_end` and `step` to the new value. -/
def set_slice_end (m : TVShowManager) (new_slice : Int) : TVShowManager :=
  { m with slice_end := new_slice, step := new_slice }

/-- `add_column`: replaces the column schema wholesale. -/
def add_column (m : TVShowManager) (column_info : ColumnInfo) : TVShowManager :=
  { m with column_info := column_info }

/-- `add_tv_show`: appends one record to the record set. -/
def add_tv_show (m : TVShowManager) (tv_show : Record) : TVShowManager :=
  { m with tv_shows := m.tv_shows ++ [tv_show] }

/-- `clear`: empties the record set (pagination bounds untouched). -/
def clear (m : TVShowManager) : TVShowManager := { m with tv_shows := [] }

end TVShowManager

/-- Style derivation for one column: `col_style.get("color", None)` followed by
the Python truthiness test `if color:` (an empty color string yields no style). -/
def styleOf (color : Option String) : Option String :=
  match color with
  | some c => if c = "" then none else some c
  | none => none

/-- Row construction of `display_data` for one record:
`[entry.get(col_name, '') for col_name in self.column_info.keys()]`. -/
def rowOf (column_info : ColumnInfo) (entry : Record) : List String :=
  column_info.map (fun cs => ((entry.lookup cs.1).getD ""))

/-- The grid `display_data` hands to the console: one styled column per schema
entry, one row per record of the slice. -/
structure RenderedTable where
  columns : List (String × Option String)
  rows : List (List String)
deriving DecidableEq

/-- `display_data`: builds the table from the column schema and the slice. -/
def TVShowManager.display_data (m : TVShowManager) (data_slice : List Record) :
    RenderedTable :=
  ⟨m.column_info.map (fun cs => (cs.1, styleOf cs.2)),
   data_slice.map (fun entry => rowOf m.column_info entry)⟩

/-- Result of one input-resolution step of the loop body of `run`:
either the loop breaks (returning the key as last command) or it continues
with new slice bounds. -/
inductive StepRes where
  | brk : StepRes
  | cont : Int → Int → StepRes
deriving DecidableEq

/-- One iteration of the transition logic of `run`, given the total item
count, the step (page size), whether a `search` callback was resolved from
the call stack, the current bounds and the key the user typed.
Mirrors lines 166-224 of `table.py`. -/
def stepTrans (total_items pstep : Int) (research_found : Bool)
    (slice_start slice_end : Int) (key : String) : StepRes :=
  if slice_end < total_items then
    if pyLower key = "q" then .brk
    else if key = "" then
      .cont (slice_start + pstep)
        (if slice_end + pstep > total_items then total_items
         else slice_end + pstep)
    else if pyLower key = "back" ∧ research_found = true then
      .cont slice_start slice_end
    else .brk
  else
    if pyLower key = "q" then .brk
    else if key = "" then .cont 0 pstep
    else if pyLower key = "back" ∧ research_found = true then
      .cont slice_start slice_end
    else .brk

/-- Observable outcome of `run` on a finite script of user inputs:
`finished key s e` means the loop broke on `key` (which `run` returns) with
bounds `(s, e)` at the break; `pending s e last` means the input script ran
out with the loop still alive at bounds `(s, e)` and `last` the most recent
command. -/
inductive RunOutcome where
  | pending : Int → Int → String → RunOutcome
  | finished : String → Int → Int → RunOutcome
deriving DecidableEq

/-- The `slice_start` component of an outcome. -/
def RunOutcome.startVal : RunOutcome → Int
  | .pending s _ _ => s
  | .finished _ s _ => s

/-- The `slice_end` component of an outcome. -/
def RunOutcome.endVal : RunOutcome → Int
  | .pending _ e _ => e
  | .finished _ _ e => e

/-- The `while True` loop of `run`, driven by the list of user inputs. -/
def runAux (total_items pstep : Int) (research_found : Bool) :
    Int → Int → String → List String → RunOutcome
  | s, e, last, [] => .pending s e last
  | s, e, _, key :: rest =>
    match stepTrans total_items pstep research_found s e key with
    | .brk => .finished key s e
    | .cont s1 e1 => runAux total_items pstep research_found s1 e1 key rest

/-- `run`: enters the loop with the manager's current bounds;
`total_items = len(self.tv_shows)` is computed once, `last_command` starts
empty. -/
def TVShowManager.run (m : TVShowManager) (research_found : Bool)
    (keys : List String) : RunOutcome :=
  runAux (m.tv_shows.length : Int) m.step research_found
    m.slice_start m.slice_end "" keys

/-- Abstract file system seen by `run_back_command`'s project-root search:
`hasRoot p` models `os.path.exists(os.path.join(p, 'StreamingCommunity'))`
and `parent` models `os.path.dirname`. -/
structure FsEnv where
  hasRoot : String → Bool
  parent : String → String

/-- The `while not os.path.exists(...)` walk of `run_back_command`, made
total with fuel: `none` models the walk never finding a project root
(the Python loop then never terminates). -/
def findRoot (env : FsEnv) : Nat → String → Option String
  | 0, _ => none
  | fuel + 1, p => if env.hasRoot p then some p else findRoot env fuel (env.parent p)

/-- Observable result of one `run_back_command` call: the exception escaping
the call if any, the diagnostic the `except` block printed if any, and the
final `sys.path`. -/
structure BackResult where
  raised : Option String
  printed : Option String
  sysPath : List String
deriving DecidableEq

/-- `run_back_command`, shallowly embedded over the abstract file system and
an explicit `sys.path`.  `importOk` abstracts whether
`importlib.import_module` + `getattr(module, 'search')` + `search(None)`
succeed; their failure is caught by the `except Exception` block and only
printed.  Result `none` models the non-terminating root walk.  When
`research_func` has no `'folder'` key, the `KeyError` raised at
`os.path.basename(research_func['folder'])` is caught and printed, but the
cleanup line `if project_root in sys.path` then raises `UnboundLocalError`
because the local `project_root` was never assigned; that exception escapes
the call with `sys.path` untouched. -/
def TVShowManager.run_back_command (env : FsEnv) (fuel : Nat) (importOk : Bool)
    (research_func : List (String × String)) (sysPath : List String) :
    Option BackResult :=
  match research_func.lookup "folder" with
  | none => some ⟨some "UnboundLocalError", some "KeyError", sysPath⟩
  | some folder =>
    (findRoot env fuel folder).map (fun project_root =>
      let sysPath1 := if project_root ∈ sysPath then sysPath
                      else project_root :: sysPath
      ⟨none,
       if importOk then none else some "ImportError",
       if project_root ∈ sysPath1 then sysPath1.erase project_root
       else sysPath1⟩)

/-- A file system in which every directory contains `StreamingCommunity`. -/
def envFlat : FsEnv := ⟨fun _ => true, fun p => p⟩

/-- The record set of the spec's walkthrough scenario: 12 records with the
two schema columns `Index` and `Title`. -/
def exampleShows : List Record :=
  (List.range 12).map
    (fun i => [("Index", toString (i + 1)), ("Title", "Show " ++ toString (i + 1))])

/-- The controller of the walkthrough scenario, populated through the public
operations: schema `{Index, Title}`, default page size 5, 12 records. -/
def exampleManager : TVShowManager :=
  exampleShows.foldl TVShowManager.add_tv_show
    (TVShowManager.init.add_column [("Index", some "red"), ("Title", none)])

/-! ### Helper lemmas about the loop transition -/

/-- Inductive invariant of the pagination state reachable by `run` from the
initial bounds `(0, pstep)`: `slice_start` is nonnegative and strictly below
`slice_end`, and `slice_end` is either the unclamped `slice_start + pstep`,
the clamped `total_items`, or the reset value `pstep`. -/
def PagInv (total_items pstep s e : Int) : Prop :=
  0 ≤ s ∧ s < e ∧
    ((e = s + pstep ∧ e ≤ total_items) ∨
     (e = total_items ∧ total_items ≤ s + pstep) ∨
     (s = 0 ∧ e = pstep))

theorem pyLower_empty : pyLower "" = "" := rfl

theorem stepTrans_pagInv {t p : Int} {cb : Bool} {s e s1 e1 : Int} {key : String}
    (hp : 0 < p) (h : PagInv t p s e)
    (hstep : stepTrans t p cb s e key = .cont s1 e1) : PagInv t p s1 e1 := by
  unfold PagInv at h ⊢
  unfold stepTrans at hstep
  split_ifs at hstep <;> simp at hstep <;> omega

theorem runAux_pagInv {t p : Int} {cb : Bool} (hp : 0 < p) :
    ∀ (keys : List String) (s e : Int) (last : String), PagInv t p s e →
      PagInv t p (runAux t p cb s e last keys).startVal
        (runAux t p cb s e last keys).endVal := by
  intro keys
  induction keys with
  | nil =>
    intro s e last h
    simpa [runAux, RunOutcome.startVal, RunOutcome.endVal] using h
  | cons key rest ih =>
    intro s e last h
    rcases hstep : stepTrans t p cb s e key with _ | ⟨s1, e1⟩
    · simpa [runAux, hstep, RunOutcome.startVal, RunOutcome.endVal] using h
    · simpa [runAux, hstep] using ih s1 e1 key (stepTrans_pagInv hp h hstep)

theorem stepTrans_end_le {t p : Int} {cb : Bool} {s e s1 e1 : Int} {key : String}
    (hpt : p ≤ t) (he : e ≤ t) (hstep : stepTrans t p cb s e key = .cont s1 e1) :
    e1 ≤ t := by
  unfold stepTrans at hstep
  split_ifs at hstep <;> simp at hstep <;> omega

theorem runAux_end_le {t p : Int} {cb : Bool} (hpt : p ≤ t) :
    ∀ (keys : List String) (s e : Int) (last : String), e ≤ t →
      (runAux t p cb s e last keys).endVal ≤ t := by
  intro keys
  induction keys with
  | nil =>
    intro s e last h
    simpa [runAux, RunOutcome.endVal] using h
  | cons key rest ih =>
    intro s e last h
    rcases hstep : stepTrans t p cb s e key with _ | ⟨s1, e1⟩
    · simpa [runAux, hstep, RunOutcome.endVal] using h
    · simpa [runAux, hstep] using ih s1 e1 key (stepTrans_end_le hpt h hstep)

/-- An empty input while more pages remain advances both bounds by the step
and clamps the end to the total. -/
theorem stepTrans_empty_advance {t p : Int} {cb : Bool} {s e : Int} (he : e < t) :
    stepTrans t p cb s e "" = .cont (s + p) (min (e + p) t) := by
  unfold stepTrans
  rw [if_pos he, if_neg (by decide : ¬ pyLower "" = "q"), if_pos rfl]
  have : (if e + p > t then t else e + p) = min (e + p) t := by
    rw [min_def]; split <;> split <;> omega
  rw [this]

/-! ### Claim theorems -/

/-- C1 counterexample: with no resolvable `search` callback, typing `back`
does not leave the loop running — the transition falls through to the final
`else: break`, so the run terminates (returning `"back"`), contradicting the
claim that the loop continues on that input. -/
theorem C1_counterexample_back_terminates :
    runAux 12 5 false 0 5 "" ["back"] = .finished "back" 0 5 ∧
    runAux 12 5 false 0 5 "" ["back"] ≠ .pending 0 5 "back" :=
  ⟨by decide, by decide⟩

/-- C1 (amended): when no `search` callback could be resolved from the call
stack, any case variation of `back` is handled by the catch-all branch: the
loop terminates immediately without raising, the pagination state is
unchanged at exit, and `run` returns the typed string. -/
theorem C1_amended_back_without_callback
    (t p s e : Int) (last key : String) (rest : List String)
    (hk : pyLower key = "back") :
    runAux t p false s e last (key :: rest) = .finished key s e := by
  have hq : ¬ pyLower key = "q" := by rw [hk]; decide
  have hne : ¬ key = "" := by
    intro h0
    rw [h0] at hk
    exact absurd hk (by decide)
  have hstep : stepTrans t p false s e key = .brk := by
    unfold stepTrans
    split <;> simp [hq, hne]
  simp [runAux, hstep]

/-- Witness for C1 (amended) at a concrete input. -/
theorem C1_amended_back_without_callback_witness :
    runAux 7 3 false 0 3 "" ["BACK"] = .finished "BACK" 0 3 :=
  C1_amended_back_without_callback 7 3 0 3 "" "BACK" [] (by decide)

/-- C8: any case variation of `q`, and any input that is none of `q`, the
empty string or `back` up to the case-insensitive comparisons the code makes,
breaks the loop at once — whether or not more pages remain — and `run`
returns exactly that string. -/
theorem C8_terminating_inputs_returned_verbatim
    (t p : Int) (cb : Bool) (s e : Int) (last key : String) (rest : List String)
    (hk : pyLower key = "q" ∨
          (¬ pyLower key = "q" ∧ ¬ key = "" ∧ ¬ pyLower key = "back")) :
    runAux t p cb s e last (key :: rest) = .finished key s e := by
  have hstep : stepTrans t p cb s e key = .brk := by
    rcases hk with hq | ⟨hq, hne, hnb⟩
    · unfold stepTrans
      split <;> simp [hq]
    · unfold stepTrans
      split <;> simp [hq, hne, hnb]
  simp [runAux, hstep]

/-- Witness for C8 at concrete inputs: an upper-case quit with pages left,
and a range selection on the last page. -/
theorem C8_terminating_inputs_returned_verbatim_witness :
    runAux 12 5 true 0 5 "" ["Q"] = .finished "Q" 0 5 ∧
    runAux 12 5 true 10 12 "" ["1-3"] = .finished "1-3" 10 12 :=
  ⟨C8_terminating_inputs_returned_verbatim 12 5 true 0 5 "" "Q" []
      (Or.inl (by decide)),
   C8_terminating_inputs_returned_verbatim 12 5 true 10 12 "" "1-3" []
      (Or.inr (by decide))⟩

/-- C7: the spec's walkthrough — page size 5, 12 records, schema
`{Index, Title}`.  The rendered slices are records 0-4, 5-9 and 10-11, the
empty-input states are `(5,10)`, `(10,12)` and the wrapped `(0,5)`, and the
input `3` then ends the run returning `"3"`. -/
theorem C7_scenario_twelve_records_page_walk :
    exampleManager.tv_shows.length = 12 ∧
    exampleManager.step = 5 ∧
    pySlice exampleManager.tv_shows exampleManager.slice_start
        exampleManager.slice_end = exampleShows.take 5 ∧
    runAux 12 5 false 0 5 "" [""] = .pending 5 10 "" ∧
    pySlice exampleShows 5 10 = (exampleShows.drop 5).take 5 ∧
    runAux 12 5 false 0 5 "" ["", ""] = .pending 10 12 "" ∧
    pySlice exampleShows 10 12 = exampleShows.drop 10 ∧
    runAux 12 5 false 0 5 "" ["", "", ""] = .pending 0 5 "" ∧
    TVShowManager.run exampleManager false ["", "", "", "3"] =
      .finished "3" 0 5 := by
  decide

/-- C10: `set_slice_end` writes only `slice_end` and `step` (both to the new
value) and leaves `slice_start`, the record set and the column schema
untouched; in particular a state with `slice_start ≥ slice_end` is
producible by calling it after paging advanced `slice_start`. -/
theorem C10_set_slice_end_frame (m : TVShowManager) (n : Int) :
    (m.set_slice_end n).slice_end = n ∧
    (m.set_slice_end n).step = n ∧
    (m.set_slice_end n).slice_start = m.slice_start ∧
    (m.set_slice_end n).tv_shows = m.tv_shows ∧
    (m.set_slice_end n).column_info = m.column_info ∧
    (∃ m1 : TVShowManager, ∃ k : Int, m1.slice_start < m1.slice_end ∧
      (m1.set_slice_end k).slice_end ≤ (m1.set_slice_end k).slice_start) :=
  ⟨rfl, rfl, rfl, rfl, rfl, ⟨⟨[], 5, 10, 5, []⟩, 3, by decide, by decide⟩⟩

/-- C9: the renderer builds each row by looking the schema column keys up in
the record, in schema order, and substitutes the empty string for a key the
record lacks — a record missing a schema column yields an empty cell, never
an error. -/
theorem C9_render_row_lookup
    (cols : ColumnInfo) (ds : List Record) (entry : Record) (i : Nat) :
    ((TVShowManager.init.add_column cols).display_data ds).rows =
      ds.map (rowOf cols) ∧
    (rowOf cols entry).length = cols.length ∧
    (rowOf cols entry)[i]? =
      (cols[i]?).map (fun cs => ((entry.lookup cs.1).getD "")) ∧
    rowOf [("Index", none), ("Title", none)] [("Index", "7")] = ["7", ""] :=
  ⟨rfl, by simp [rowOf], by simp [rowOf], by decide⟩

/-- C4 counterexample: with 3 records and the default page size 5, the claim
"end never exceeds total at every point of the run" fails — the state after
the first empty input (a wrap, which also does not advance the bounds by the
page size) still has `slice_end = 5 > 3 = total`, as does the initial state. -/
theorem C4_counterexample_end_exceeds_total :
    TVShowManager.init.slice_end = 5 ∧
    runAux 3 5 false 0 5 "" [""] = .pending 0 5 "" ∧
    (runAux 3 5 false 0 5 "" [""]).endVal > 3 :=
  ⟨by decide, by decide, by decide⟩

/-- C4 (amended): for every page size `0 < pstep ≤ total`, every state of a
run started from the initial bounds `(0, pstep)` keeps `slice_end ≤ total`,
and every empty input taken while more pages remain advances both bounds by
exactly the page size, clamping the end to the total on overshoot.  (When
`total < pstep`, the initial and wrapped states instead carry
`slice_end = pstep > total`.) -/
theorem C4_amended_advance_and_clamp (t p : Int) (cb : Bool)
    (hp : 0 < p) (hpt : p ≤ t) :
    (∀ keys : List String, (runAux t p cb 0 p "" keys).endVal ≤ t) ∧
    (∀ s e : Int, e < t →
      stepTrans t p cb s e "" = .cont (s + p) (min (e + p) t)) :=
  ⟨fun keys => runAux_end_le hpt keys 0 p "" hpt,
   fun _ e he => stepTrans_empty_advance he⟩

/-- Witness for C4 (amended) at page size 5 and total 12. -/
theorem C4_amended_advance_and_clamp_witness :
    (runAux 12 5 false 0 5 "" ["", "", ""]).endVal ≤ 12 :=
  (C4_amended_advance_and_clamp 12 5 false (by decide) (by decide)).1
    ["", "", ""]

/-- C5 counterexample: with page size 5 and total 5, `slice_end = total`
holds at once; the first empty input wraps to `(0,5)`, but the second empty
input wraps again to `(0,5)` instead of reaching the claimed
`(pageSize, min(2*pageSize, total)) = (5,5)`. -/
theorem C5_counterexample_second_empty_after_wrap :
    runAux 5 5 false 0 5 "" ["", ""] = .pending 0 5 "" ∧
    runAux 5 5 false 0 5 "" ["", ""] ≠ .pending 5 5 "" :=
  ⟨by decide, by decide⟩

/-- C5 (amended): once `slice_end = total`, an empty input resets the bounds
to `(0, pageSize)`.  From that reset state a second empty input reaches
`(pageSize, min(2*pageSize, total))` when `pageSize < total`, and wraps to
`(0, pageSize)` again when `pageSize ≥ total` — in both cases exactly the
transition a fresh session takes on its first empty input. -/
theorem C5_amended_wrap_then_second_page (t p : Int) (cb : Bool) (s : Int)
    (hp : 0 < p) :
    stepTrans t p cb s t "" = .cont 0 p ∧
    (p < t → stepTrans t p cb 0 p "" = .cont p (min (p + p) t)) ∧
    (t ≤ p → stepTrans t p cb 0 p "" = .cont 0 p) := by
  refine ⟨?_, fun hlt => ?_, fun hle => ?_⟩
  · unfold stepTrans
    rw [if_neg (lt_irrefl t), if_neg (by decide : ¬ pyLower "" = "q"),
      if_pos rfl]
  · have h := @stepTrans_empty_advance t p cb 0 p hlt
    rwa [zero_add] at h
  · unfold stepTrans
    rw [if_neg (not_lt.mpr hle), if_neg (by decide : ¬ pyLower "" = "q"),
      if_pos rfl]

/-- Witness for C5 (amended): page size 5, total 12, wrap from `(10,12)` and
second page from the reset state. -/
theorem C5_amended_wrap_then_second_page_witness :
    stepTrans 12 5 false 10 12 "" = .cont 0 5 ∧
    stepTrans 12 5 false 0 5 "" = .cont 5 (min 10 12) :=
  ⟨(C5_amended_wrap_then_second_page 12 5 false 10 (by decide)).1,
   (C5_amended_wrap_then_second_page 12 5 false 10 (by decide)).2.1 (by decide)⟩

/-- C6: for every page size `pstep > 0`, every state of a run started from
the initial bounds `(0, pstep)` — across page advances, wraps and back
delegations, and at the break point — satisfies `0 ≤ slice_start <
slice_end`; the constructor initialises `step` to the initial `slice_end`,
and that step is the exact increment of every page advance. -/
theorem C6_pagination_invariant (t p : Int) (cb : Bool) (hp : 0 < p) :
    (∀ keys : List String,
      0 ≤ (runAux t p cb 0 p "" keys).startVal ∧
      (runAux t p cb 0 p "" keys).startVal <
        (runAux t p cb 0 p "" keys).endVal) ∧
    TVShowManager.init.step = TVShowManager.init.slice_end ∧
    (∀ s e : Int, e < t →
      stepTrans t p cb s e "" = .cont (s + p) (min (e + p) t)) := by
  refine ⟨fun keys => ?_, rfl, fun _ e he => stepTrans_empty_advance he⟩
  have h0 : PagInv t p 0 p := ⟨le_refl 0, hp, Or.inr (Or.inr ⟨rfl, rfl⟩)⟩
  have h := @runAux_pagInv t p cb hp keys 0 p "" h0
  exact ⟨h.1, h.2.1⟩

/-- Witness for C6 at page size 5, total 12, after two page advances. -/
theorem C6_pagination_invariant_witness :
    0 ≤ (runAux 12 5 false 0 5 "" ["", ""]).startVal ∧
    (runAux 12 5 false 0 5 "" ["", ""]).startVal <
      (runAux 12 5 false 0 5 "" ["", ""]).endVal :=
  (C6_pagination_invariant 12 5 false (by decide)).1 ["", ""]

/-- C2 counterexample: when the resolved project root is already on
`sys.path` before the call, `run_back_command` does not insert it but still
removes it on the way out, so the search path after the call differs from
the search path before it. -/
theorem C2_counterexample_preexisting_root_removed :
    TVShowManager.run_back_command envFlat 1 true [("folder", "r")] ["r"] =
      some ⟨none, none, []⟩ ∧
    TVShowManager.run_back_command envFlat 1 true [("folder", "r")] ["r"] ≠
      some ⟨none, none, ["r"]⟩ :=
  ⟨by decide, by decide⟩

/-- C2 (amended): whenever the project-root walk resolves a root that was
not already on `sys.path`, `run_back_command` restores `sys.path` exactly
to its pre-call value before returning, both when the import-and-call of
the search callback succeeds and when it raises (the error being only
printed).  When the root was already present, the call instead removes one
occurrence of it. -/
theorem C2_amended_path_restored_when_root_absent
    (env : FsEnv) (fuel : Nat) (importOk : Bool)
    (research_func : List (String × String)) (sysPath : List String)
    (folder project_root : String)
    (hf : research_func.lookup "folder" = some folder)
    (hr : findRoot env fuel folder = some project_root)
    (hnot : project_root ∉ sysPath) :
    TVShowManager.run_back_command env fuel importOk research_func sysPath =
      some ⟨none, if importOk then none else some "ImportError", sysPath⟩ := by
  unfold TVShowManager.run_back_command
  rw [hf]
  dsimp only
  rw [hr]
  simp [hnot]

/-- Witness for C2 (amended): failing import (`importOk = false`) with the
root absent from the initial path, which is restored unchanged. -/
theorem C2_amended_path_restored_when_root_absent_witness :
    TVShowManager.run_back_command envFlat 1 false [("folder", "x")] ["other"] =
      some ⟨none, some "ImportError", ["other"]⟩ :=
  C2_amended_path_restored_when_root_absent envFlat 1 false [("folder", "x")]
    ["other"] "x" "x" (by decide) (by decide) (by decide)

/-- C3: evaluating `run_back_command` at a `research_func` dictionary with no
`'folder'` key.  The `KeyError` is caught and printed by the `except` block,
but the cleanup line `if project_root in sys.path` then raises
`UnboundLocalError`, which escapes the call — contradicting the claim that
every failure is swallowed and the call returns normally. -/
theorem C3_unbound_local_on_missing_folder :
    TVShowManager.run_back_command envFlat 1 true [] ["a"] =
      some ⟨some "UnboundLocalError", some "KeyError", ["a"]⟩ := by
  decide
